import Mathlib

/-!
Shallow embedding of the trade-simulator core (`trade_simulator.py`):
the `OrderBook` state store, its mutation protocol `update`, the read
interface (`get_best_ask`, `get_best_bid`, `get_mid_price`, `is_stale`),
the cost-model function `fee_estimate`, the latency average
`get_average_latency`, and the reconnection supervisory loop of
`OKXWebSocketClient.connect` as a step function on an explicit state.

Prices and quantities are modelled as rationals; wall-clock time is passed
explicitly as a parameter wherever the source calls `time.time()`.
-/

/-- Configured staleness threshold (`config.STALE_DATA_THRESHOLD = 10`). -/
def STALE_DATA_THRESHOLD : ℚ := 10

/-- Configured default fee tier (`config.DEFAULT_FEE_TIER = 0.001`). -/
def DEFAULT_FEE_TIER : ℚ := 1 / 1000

/-- Configured initial reconnect delay (`config.INITIAL_RECONNECT_DELAY = 2`). -/
def INITIAL_RECONNECT_DELAY : ℚ := 2

/-- Configured maximum reconnect delay (`config.MAX_RECONNECT_DELAY = 30`). -/
def MAX_RECONNECT_DELAY : ℚ := 30

/-- Numeric value of a list of decimal digit characters. -/
def digitsVal (ds : List Char) : ℕ :=
  ds.foldl (fun a c => a * 10 + (c.toNat - 48)) 0

/-- Parse an unsigned decimal literal (digits, optionally a point and more
digits) as Python `float` accepts it; `none` on anything else. -/
def parseUnsigned (cs : List Char) : Option ℚ :=
  let intPart := cs.takeWhile (fun c => c.isDigit)
  let rest := cs.dropWhile (fun c => c.isDigit)
  match rest with
  | [] => if intPart.isEmpty then none else some (digitsVal intPart : ℚ)
  | '.' :: frac =>
      if frac.all (fun c => c.isDigit) && !(intPart.isEmpty && frac.isEmpty) then
        some ((digitsVal intPart : ℚ) + (digitsVal frac : ℚ) / (10 ^ frac.length))
      else none
  | _ => none

/-- Model of Python `float(s)` on a string: an optional sign followed by a
decimal literal gives a rational, anything else raises `ValueError`,
modelled as `none`.  Note that a leading minus sign parses successfully:
`float("-1.5")` succeeds in Python and so does `pyFloat "-1.5"`. -/
def pyFloat (s : String) : Option ℚ :=
  match s.toList with
  | '-' :: cs => (parseUnsigned cs).map (fun q => -q)
  | '+' :: cs => parseUnsigned cs
  | cs => parseUnsigned cs

/-- One side of the book: an association list from price to quantity, with
unique keys, modelling the Python dict `price: quantity`. -/
abbrev Side := List (ℚ × ℚ)

/-- Model of `self.asks.pop(price_f, None)`: drop the key if present. -/
def popKey (s : Side) (k : ℚ) : Side :=
  s.filter (fun p => decide (p.1 ≠ k))

/-- Model of `self.asks[price_f] = qty_f`: overwrite the binding in place if
the key is present, otherwise append it. -/
def setKey : Side → ℚ → ℚ → Side
  | [], k, v => [(k, v)]
  | p :: ps, k, v => if p.1 = k then (k, v) :: ps else p :: setKey ps k v

/-- One iteration of the per-entry loop in `OrderBook.update`: parse price
and quantity with `float`; on a parse failure the `except` clause only logs,
so the side is returned unchanged; quantity zero pops the price; otherwise
the price is upserted. -/
def applyEntry (s : Side) (e : String × String) : Side :=
  match pyFloat e.1, pyFloat e.2 with
  | some p, some q => if q = 0 then popKey s p else setKey s p q
  | _, _ => s

/-- The whole per-side loop of `OrderBook.update` over one delta batch. -/
def applySide (side : Side) (entries : List (String × String)) : Side :=
  entries.foldl applyEntry side

/-- The order-book state: ask side, bid side, and the timestamp of the most
recent `update` call (`last_update_time`). -/
structure OrderBook where
  asks : Side
  bids : Side
  lastUpdateAt : ℚ
  deriving DecidableEq

/-- The book as constructed by `OrderBook.__init__`: both sides empty,
`last_update_time = 0`. -/
def emptyBook : OrderBook := { asks := [], bids := [], lastUpdateAt := 0 }

/-- Model of `OrderBook.update(asks, bids)`: apply the ask batch to the ask
side and the bid batch to the bid side, then unconditionally set
`last_update_time` to the current time (`time.time()`, passed here as
`now`).  The per-entry `try/except` of the source makes the function total:
a parse failure skips that entry only. -/
def OrderBook.update (b : OrderBook) (askDeltas bidDeltas : List (String × String))
    (now : ℚ) : OrderBook :=
  { asks := applySide b.asks askDeltas
    bids := applySide b.bids bidDeltas
    lastUpdateAt := now }

/-- Model of `get_best_ask`: `min(self.asks.keys()) if self.asks else None`. -/
def get_best_ask (b : OrderBook) : Option ℚ :=
  match b.asks with
  | [] => none
  | x :: xs => some ((xs.map Prod.fst).foldl min x.1)

/-- Model of `get_best_bid`: `max(self.bids.keys()) if self.bids else None`. -/
def get_best_bid (b : OrderBook) : Option ℚ :=
  match b.bids with
  | [] => none
  | x :: xs => some ((xs.map Prod.fst).foldl max x.1)

/-- Model of `get_mid_price`: `(best_ask + best_bid) / 2 if best_ask and
best_bid else None`.  Python truthiness: `None` and `0.0` are both falsy, so
the average is produced only when both best prices exist and are nonzero. -/
def get_mid_price (b : OrderBook) : Option ℚ :=
  match get_best_ask b, get_best_bid b with
  | some a, some d => if a ≠ 0 ∧ d ≠ 0 then some ((a + d) / 2) else none
  | _, _ => none

/-- Model of `is_stale(max_age_seconds=None)`: `max_age = max_age_seconds or
config.STALE_DATA_THRESHOLD` (Python `or` takes the default when the
argument is `None` or the falsy number `0`), then
`time.time() - self.last_update_time > max_age`. -/
def is_stale (b : OrderBook) (now : ℚ) (maxAgeSeconds : Option ℚ) : Bool :=
  let maxAge : ℚ :=
    match maxAgeSeconds with
    | some t => if t = 0 then STALE_DATA_THRESHOLD else t
    | none => STALE_DATA_THRESHOLD
  decide (now - b.lastUpdateAt > maxAge)

/-- Model of `fee_estimate(order_size, fee_tier=None)`: `fee = fee_tier or
config.DEFAULT_FEE_TIER` (again Python `or`: `None` and `0` both fall back
to the default), then `order_size * fee`. -/
def fee_estimate (order_size : ℚ) (fee_tier : Option ℚ) : ℚ :=
  let fee : ℚ :=
    match fee_tier with
    | some f => if f = 0 then DEFAULT_FEE_TIER else f
    | none => DEFAULT_FEE_TIER
  order_size * fee

/-- Model of `get_average_latency`: `(sum(self.latency) / len(self.latency))
if self.latency else 0`; the deque is truthy exactly when non-empty. -/
def get_average_latency (latency : List ℚ) : ℚ :=
  if latency.isEmpty then 0 else latency.sum / (latency.length : ℚ)

/-- The latency deque as constructed in `OKXWebSocketClient.__init__`:
empty until a message is processed. -/
def initialLatency : List ℚ := []

/-- The mutable connection-supervision state of `OKXWebSocketClient`. -/
structure ClientState where
  connected : Bool
  reconnect_attempts : ℕ
  reconnect_delay : ℚ
  running : Bool
  deriving DecidableEq

/-- State set up by `OKXWebSocketClient.__init__`. -/
def initialClientState : ClientState :=
  { connected := false
    reconnect_attempts := 0
    reconnect_delay := INITIAL_RECONNECT_DELAY
    running := true }

/-- Events observable by one iteration of the `while self.running` loop in
`OKXWebSocketClient.connect`: a successful connection, a
`websockets.exceptions.WebSocketException`, any other exception, or an
external `shutdown()` call. -/
inductive ConnEvent
  | connectOk
  | wsError
  | otherError
  | shutdownReq
  deriving DecidableEq

/-- One transition of the supervisory loop, transcribed from
`OKXWebSocketClient.connect` and `shutdown`: success sets `connected`,
resets `reconnect_attempts` to 0 and the delay to the initial delay; a
`WebSocketException` increments `reconnect_attempts` and recomputes
`reconnect_delay = min(MAX_RECONNECT_DELAY, reconnect_delay * 1.5)`; any
other exception recomputes the delay without touching the counter;
`shutdown()` clears `running`, after which the loop makes no further
transitions. -/
def stepClient (s : ClientState) (e : ConnEvent) : ClientState :=
  if s.running then
    match e with
    | .connectOk =>
        { s with connected := true, reconnect_attempts := 0,
                 reconnect_delay := INITIAL_RECONNECT_DELAY }
    | .wsError =>
        { s with connected := false,
                 reconnect_attempts := s.reconnect_attempts + 1,
                 reconnect_delay := min MAX_RECONNECT_DELAY (s.reconnect_delay * (3 / 2)) }
    | .otherError =>
        { s with connected := false,
                 reconnect_delay := min MAX_RECONNECT_DELAY (s.reconnect_delay * (3 / 2)) }
    | .shutdownReq => { s with running := false }
  else s

/-- A book state reachable by a sequence of `update` calls from the freshly
constructed empty book. -/
inductive Reachable : OrderBook → Prop
  | empty : Reachable emptyBook
  | step (b : OrderBook) (askDeltas bidDeltas : List (String × String)) (now : ℚ) :
      Reachable b → Reachable (b.update askDeltas bidDeltas now)

/-- The book of the first spec scenario: two ask levels and one bid level
applied to the empty book. -/
def book1 : OrderBook :=
  emptyBook.update [("50000.0", "1.5"), ("50100.0", "2.0")] [("49900.0", "2.5")] 1

/-- The book of the second spec scenario: a zero-quantity delta removing the
best ask of `book1`. -/
def book2 : OrderBook := book1.update [("50000.0", "0")] [] 2

/-- A book whose ask side holds the price 0 with a positive quantity and
whose bid side is non-empty. -/
def zeroPriceBook : OrderBook := emptyBook.update [("0", "1.0")] [("1.0", "2.0")] 0

/-- A book obtained by applying a single ask delta whose quantity string is
the negative number -1.5. -/
def negQtyBook : OrderBook := emptyBook.update [("50000.0", "-1.5")] [] 0

theorem applySide_nil (s : Side) : applySide s [] = s := rfl

theorem applySide_cons (s : Side) (e : String × String) (es : List (String × String)) :
    applySide s (e :: es) = applySide (applyEntry s e) es := rfl

theorem applySide_append (s : Side) (l1 l2 : List (String × String)) :
    applySide s (l1 ++ l2) = applySide (applySide s l1) l2 :=
  List.foldl_append ..

theorem applyEntry_of_bad (s : Side) (e : String × String)
    (h : pyFloat e.1 = none ∨ pyFloat e.2 = none) : applyEntry s e = s := by
  unfold applyEntry
  cases hp : pyFloat e.1 with
  | none => rfl
  | some p =>
    cases hq : pyFloat e.2 with
    | none => rfl
    | some q => rw [hp, hq] at h; rcases h with h | h <;> exact absurd h (by simp)

theorem mem_of_mem_popKey {s : Side} {k : ℚ} {x : ℚ × ℚ}
    (hx : x ∈ popKey s k) : x ∈ s :=
  (List.mem_filter.1 hx).1

theorem mem_of_mem_setKey : ∀ (s : Side) (k v : ℚ) (x : ℚ × ℚ),
    x ∈ setKey s k v → x ∈ s ∨ x = (k, v) := by
  intro s k v
  induction s with
  | nil => intro x hx; right; simpa [setKey] using hx
  | cons p ps ih =>
    intro x hx
    unfold setKey at hx
    by_cases hpk : p.1 = k
    · rw [if_pos hpk] at hx
      rcases List.mem_cons.1 hx with rfl | hx
      · right; rfl
      · left; exact List.mem_cons_of_mem p hx
    · rw [if_neg hpk] at hx
      rcases List.mem_cons.1 hx with rfl | hx
      · left; exact List.mem_cons_self x ps
      · rcases ih x hx with h | h
        · left; exact List.mem_cons_of_mem p h
        · right; exact h

theorem applyEntry_qty_ne_zero (s : Side) (e : String × String)
    (h : ∀ x ∈ s, x.2 ≠ 0) : ∀ x ∈ applyEntry s e, x.2 ≠ 0 := by
  intro x hx
  unfold applyEntry at hx
  cases hp : pyFloat e.1 with
  | none => rw [hp] at hx; exact h x hx
  | some p =>
    cases hq : pyFloat e.2 with
    | none => rw [hp, hq] at hx; exact h x hx
    | some q =>
      rw [hp, hq] at hx
      change x ∈ (if q = 0 then popKey s p else setKey s p q) at hx
      by_cases h0 : q = 0
      · rw [if_pos h0] at hx; exact h x (mem_of_mem_popKey hx)
      · rw [if_neg h0] at hx
        rcases mem_of_mem_setKey s p q x hx with hxs | hxe
        · exact h x hxs
        · rw [hxe]; exact h0

theorem applySide_qty_ne_zero : ∀ (es : List (String × String)) (s : Side),
    (∀ x ∈ s, x.2 ≠ 0) → ∀ x ∈ applySide s es, x.2 ≠ 0 := by
  intro es
  induction es with
  | nil => intro s h; exact h
  | cons e es ih =>
    intro s h
    rw [applySide_cons]
    exact ih _ (applyEntry_qty_ne_zero s e h)

theorem foldl_min_le_init : ∀ (xs : List ℚ) (a : ℚ), xs.foldl min a ≤ a := by
  intro xs
  induction xs with
  | nil => intro a; exact le_refl a
  | cons x xs ih =>
    intro a
    calc (x :: xs).foldl min a = xs.foldl min (min a x) := rfl
      _ ≤ min a x := ih _
      _ ≤ a := min_le_left _ _

theorem foldl_min_le_mem : ∀ (xs : List ℚ) (a k : ℚ), k ∈ xs → xs.foldl min a ≤ k := by
  intro xs
  induction xs with
  | nil => intro a k hk; exact absurd hk (List.not_mem_nil k)
  | cons x xs ih =>
    intro a k hk
    rcases List.mem_cons.1 hk with rfl | hk
    · calc (k :: xs).foldl min a = xs.foldl min (min a k) := rfl
        _ ≤ min a k := foldl_min_le_init xs (min a k)
        _ ≤ k := min_le_right _ _
    · exact ih (min a x) k hk

theorem foldl_min_mem : ∀ (xs : List ℚ) (a : ℚ),
    xs.foldl min a = a ∨ xs.foldl min a ∈ xs := by
  intro xs
  induction xs with
  | nil => intro a; exact Or.inl rfl
  | cons x xs ih =>
    intro a
    rcases ih (min a x) with h | h
    · rcases min_choice a x with h2 | h2
      · left
        calc (x :: xs).foldl min a = xs.foldl min (min a x) := rfl
          _ = min a x := h
          _ = a := h2
      · right
        refine List.mem_cons.2 (Or.inl ?_)
        calc (x :: xs).foldl min a = xs.foldl min (min a x) := rfl
          _ = min a x := h
          _ = x := h2
    · right; exact List.mem_cons_of_mem x h

theorem foldl_max_init_le : ∀ (xs : List ℚ) (a : ℚ), a ≤ xs.foldl max a := by
  intro xs
  induction xs with
  | nil => intro a; exact le_refl a
  | cons x xs ih =>
    intro a
    calc a ≤ max a x := le_max_left _ _
      _ ≤ xs.foldl max (max a x) := ih _
      _ = (x :: xs).foldl max a := rfl

theorem foldl_max_mem_le : ∀ (xs : List ℚ) (a k : ℚ), k ∈ xs → k ≤ xs.foldl max a := by
  intro xs
  induction xs with
  | nil => intro a k hk; exact absurd hk (List.not_mem_nil k)
  | cons x xs ih =>
    intro a k hk
    rcases List.mem_cons.1 hk with rfl | hk
    · calc k ≤ max a k := le_max_right _ _
        _ ≤ xs.foldl max (max a k) := foldl_max_init_le xs (max a k)
        _ = (k :: xs).foldl max a := rfl
    · exact ih (max a x) k hk

theorem foldl_max_mem : ∀ (xs : List ℚ) (a : ℚ),
    xs.foldl max a = a ∨ xs.foldl max a ∈ xs := by
  intro xs
  induction xs with
  | nil => intro a; exact Or.inl rfl
  | cons x xs ih =>
    intro a
    rcases ih (max a x) with h | h
    · rcases max_choice a x with h2 | h2
      · left
        calc (x :: xs).foldl max a = xs.foldl max (max a x) := rfl
          _ = max a x := h
          _ = a := h2
      · right
        refine List.mem_cons.2 (Or.inl ?_)
        calc (x :: xs).foldl max a = xs.foldl max (max a x) := rfl
          _ = max a x := h
          _ = x := h2
    · right; exact List.mem_cons_of_mem x h

theorem get_best_ask_eq_none_iff (b : OrderBook) :
    get_best_ask b = none ↔ b.asks = [] := by
  cases h : b.asks with
  | nil => simp [get_best_ask, h]
  | cons x xs => simp [get_best_ask, h]

theorem get_best_bid_eq_none_iff (b : OrderBook) :
    get_best_bid b = none ↔ b.bids = [] := by
  cases h : b.bids with
  | nil => simp [get_best_bid, h]
  | cons x xs => simp [get_best_bid, h]

/-- C1 counterexample: the delta batch containing the single ask entry
("50000.0", "-1.5") parses successfully (Python `float` accepts negative
literals) and the entry is stored, leaving price 50000 mapped to the
negative quantity -3/2 in a reachable book state; the stored quantity is
not strictly positive. -/
theorem negative_qty_stored_cex :
    ((50000 : ℚ), (-3 / 2 : ℚ)) ∈ negQtyBook.asks ∧ ¬ (0 < (-3 / 2 : ℚ)) := by
  constructor
  · simp +decide [negQtyBook, emptyBook, OrderBook.update, applySide, applyEntry,
      pyFloat, parseUnsigned, digitsVal]
    norm_num [setKey]
  · norm_num

/-- C1 (amended): for every reachable order-book state, every price stored
in `asks` or `bids` maps to a nonzero quantity (zero-quantity entries are
deletions, never stored); a negative quantity parses successfully and is
stored as-is, so strict positivity does not hold. -/
theorem reachable_qty_ne_zero :
    ∀ b : OrderBook, Reachable b →
      ∀ pq : ℚ × ℚ, pq ∈ b.asks ∨ pq ∈ b.bids → pq.2 ≠ 0 := by
  intro b hb
  induction hb with
  | empty =>
    intro pq h
    rcases h with h | h <;> exact absurd h (List.not_mem_nil pq)
  | step b askDeltas bidDeltas now hb ih =>
    intro pq h
    rcases h with h | h
    · exact applySide_qty_ne_zero askDeltas b.asks (fun x hx => ih x (Or.inl hx)) pq h
    · exact applySide_qty_ne_zero bidDeltas b.bids (fun x hx => ih x (Or.inr hx)) pq h

/-- C1 witness: the amended invariant applied at a concrete reachable book
holding one ask level. -/
theorem reachable_qty_ne_zero_witness : ((50000 : ℚ), (3 / 2 : ℚ)).2 ≠ 0 :=
  reachable_qty_ne_zero (emptyBook.update [("50000.0", "1.5")] [] 0)
    (Reachable.step emptyBook [("50000.0", "1.5")] [] 0 Reachable.empty)
    (50000, 3 / 2)
    (Or.inl (by
      simp +decide [emptyBook, OrderBook.update, applySide, applyEntry,
        pyFloat, parseUnsigned, digitsVal]
      norm_num [setKey]))

/-- C2: every `update` call sets `lastUpdateAt` to the current time, and a
call whose every entry fails to parse (here the unparseable price "oops" on
both sides) still advances the timestamp while leaving both maps
unchanged. -/
theorem update_sets_timestamp :
    ∀ (b : OrderBook) (askDeltas bidDeltas : List (String × String)) (now : ℚ),
      (b.update askDeltas bidDeltas now).lastUpdateAt = now ∧
      ((b.update [("oops", "1.0")] [("oops", "2.0")] now).asks = b.asks ∧
        (b.update [("oops", "1.0")] [("oops", "2.0")] now).bids = b.bids ∧
        (b.update [("oops", "1.0")] [("oops", "2.0")] now).lastUpdateAt = now) := by
  intro b askDeltas bidDeltas now
  refine ⟨rfl, ?_, ?_, rfl⟩
  · show applySide b.asks [("oops", "1.0")] = b.asks
    rw [applySide_cons, applyEntry_of_bad _ _ (Or.inl (by decide)), applySide_nil]
  · show applySide b.bids [("oops", "2.0")] = b.bids
    rw [applySide_cons, applyEntry_of_bad _ _ (Or.inl (by decide)), applySide_nil]

/-- C3 counterexample: in the reachable book whose ask side holds price 0
with quantity 1 and whose bid side holds price 1 with quantity 2, both
sides are non-empty yet `get_mid_price` is absent, because Python treats
the best-ask value `0.0` as falsy. -/
theorem mid_price_zero_ask_cex :
    zeroPriceBook.asks ≠ [] ∧ zeroPriceBook.bids ≠ [] ∧
      get_mid_price zeroPriceBook = none := by
  refine ⟨?_, ?_, ?_⟩ <;>
    simp +decide [zeroPriceBook, emptyBook, OrderBook.update, applySide, applyEntry,
      pyFloat, parseUnsigned, digitsVal, setKey, get_mid_price, get_best_ask,
      get_best_bid]

/-- C3 (amended): `get_mid_price` returns the average of the best ask and
best bid whenever both exist and both are nonzero, and it is absent if and
only if at least one side is empty or the best price of a side equals 0
(the source guards with Python truthiness, `if best_ask and best_bid`,
which treats the float 0.0 like `None`). -/
theorem mid_price_truthiness :
    ∀ b : OrderBook,
      (∀ a d : ℚ, get_best_ask b = some a → get_best_bid b = some d →
        a ≠ 0 → d ≠ 0 → get_mid_price b = some ((a + d) / 2)) ∧
      (get_mid_price b = none ↔
        b.asks = [] ∨ b.bids = [] ∨ get_best_ask b = some 0 ∨ get_best_bid b = some 0) := by
  intro b
  constructor
  · intro a d ha hd ha0 hd0
    simp [get_mid_price, ha, hd, ha0, hd0]
  · unfold get_mid_price
    cases ha : get_best_ask b with
    | none =>
      simp [(get_best_ask_eq_none_iff b).1 ha]
    | some a =>
      have hasks : ¬ b.asks = [] := fun h => by
        rw [(get_best_ask_eq_none_iff b).2 h] at ha; exact Option.noConfusion ha
      cases hd : get_best_bid b with
      | none =>
        simp [(get_best_bid_eq_none_iff b).1 hd]
      | some d =>
        have hbids : ¬ b.bids = [] := fun h => by
          rw [(get_best_bid_eq_none_iff b).2 h] at hd; exact Option.noConfusion hd
        by_cases ha0 : a = 0
        · simp [hasks, hbids, ha0]
        · by_cases hd0 : d = 0
          · simp [hasks, hbids, ha0, hd0]
          · simp [hasks, hbids, ha0, hd0]

/-- C3 witness: the positive half of the amended statement evaluated on the
scenario book, where the best ask 50000 and best bid 49900 are nonzero and
the mid price is their average 49950. -/
theorem mid_price_truthiness_witness : get_mid_price book1 = some ((50000 + 49900) / 2) :=
  (mid_price_truthiness book1).1 50000 49900
    (by
      simp +decide [book1, emptyBook, OrderBook.update, applySide, applyEntry,
        pyFloat, parseUnsigned, digitsVal]
      norm_num [setKey, get_best_ask])
    (by
      simp +decide [book1, emptyBook, OrderBook.update, applySide, applyEntry,
        pyFloat, parseUnsigned, digitsVal]
      norm_num [setKey, get_best_bid])
    (by norm_num) (by norm_num)

/-- C4: `get_best_ask` is absent exactly when the ask side is empty and
otherwise returns a stored ask price that is a lower bound of all stored
ask prices; `get_best_bid` dually returns a stored upper bound of the bid
prices; and on the spec scenario, applying asks
[["50000.0","1.5"],["50100.0","2.0"]] and bids [["49900.0","2.5"]] to the
empty book gives best ask 50000, best bid 49900 and mid price 49950, after
which the zero-quantity delta [["50000.0","0"]] removes price 50000 and the
best ask becomes 50100. -/
theorem best_ask_bid_spec :
    ∀ b : OrderBook,
      ((get_best_ask b = none ↔ b.asks = []) ∧
        ∀ a : ℚ, get_best_ask b = some a →
          a ∈ b.asks.map Prod.fst ∧ ∀ k ∈ b.asks.map Prod.fst, a ≤ k) ∧
      ((get_best_bid b = none ↔ b.bids = []) ∧
        ∀ d : ℚ, get_best_bid b = some d →
          d ∈ b.bids.map Prod.fst ∧ ∀ k ∈ b.bids.map Prod.fst, k ≤ d) ∧
      (get_best_ask book1 = some 50000 ∧ get_best_bid book1 = some 49900 ∧
        get_mid_price book1 = some 49950 ∧ get_best_ask book2 = some 50100 ∧
        (50000 : ℚ) ∉ book2.asks.map Prod.fst) := by
  intro b
  refine ⟨⟨get_best_ask_eq_none_iff b, ?_⟩, ⟨get_best_bid_eq_none_iff b, ?_⟩,
    ?_, ?_, ?_, ?_, ?_⟩
  · intro a ha
    cases h : b.asks with
    | nil => exact absurd ha (by simp [get_best_ask, h])
    | cons x xs =>
      rw [get_best_ask, h] at ha
      have hval : (xs.map Prod.fst).foldl min x.1 = a := Option.some_injective ℚ ha
      constructor
      · rw [List.map_cons]
        rcases foldl_min_mem (xs.map Prod.fst) x.1 with hm | hm
        · rw [← hval, hm]; exact List.mem_cons_self x.1 (xs.map Prod.fst)
        · rw [← hval]; exact List.mem_cons_of_mem x.1 hm
      · intro k hk
        rw [List.map_cons] at hk
        rcases List.mem_cons.1 hk with rfl | hk
        · rw [← hval]; exact foldl_min_le_init (xs.map Prod.fst) x.1
        · rw [← hval]; exact foldl_min_le_mem (xs.map Prod.fst) x.1 k hk
  · intro d hd
    cases h : b.bids with
    | nil => exact absurd hd (by simp [get_best_bid, h])
    | cons x xs =>
      rw [get_best_bid, h] at hd
      have hval : (xs.map Prod.fst).foldl max x.1 = d := Option.some_injective ℚ hd
      constructor
      · rw [List.map_cons]
        rcases foldl_max_mem (xs.map Prod.fst) x.1 with hm | hm
        · rw [← hval, hm]; exact List.mem_cons_self x.1 (xs.map Prod.fst)
        · rw [← hval]; exact List.mem_cons_of_mem x.1 hm
      · intro k hk
        rw [List.map_cons] at hk
        rcases List.mem_cons.1 hk with rfl | hk
        · rw [← hval]; exact foldl_max_init_le (xs.map Prod.fst) x.1
        · rw [← hval]; exact foldl_max_mem_le (xs.map Prod.fst) x.1 k hk
  · simp +decide [book1, emptyBook, OrderBook.update, applySide, applyEntry,
      pyFloat, parseUnsigned, digitsVal]
    norm_num [setKey, get_best_ask]
  · simp +decide [book1, emptyBook, OrderBook.update, applySide, applyEntry,
      pyFloat, parseUnsigned, digitsVal]
    norm_num [setKey, get_best_bid]
  · simp +decide [book1, emptyBook, OrderBook.update, applySide, applyEntry,
      pyFloat, parseUnsigned, digitsVal, get_mid_price, get_best_ask, get_best_bid]
    norm_num [setKey]
  · simp +decide [book2, book1, emptyBook, OrderBook.update, applySide, applyEntry,
      pyFloat, parseUnsigned, digitsVal]
    norm_num [setKey, popKey, get_best_ask]
  · simp +decide [book2, book1, emptyBook, OrderBook.update, applySide, applyEntry,
      pyFloat, parseUnsigned, digitsVal]
    norm_num [setKey, popKey]

/-- C4 witness: the lower-bound half applied at the scenario book, whose
best ask is 50000. -/
theorem best_ask_bid_spec_witness :
    (50000 : ℚ) ∈ book1.asks.map Prod.fst ∧
      ∀ k ∈ book1.asks.map Prod.fst, (50000 : ℚ) ≤ k :=
  (best_ask_bid_spec book1).1.2 50000
    (by
      simp +decide [book1, emptyBook, OrderBook.update, applySide, applyEntry,
        pyFloat, parseUnsigned, digitsVal]
      norm_num [setKey, get_best_ask])

/-- C5 counterexample: with `lastUpdateAt = 0`, current time 5 and the
caller-supplied threshold 0, the elapsed time 5 strictly exceeds the
supplied threshold 0, yet `is_stale` returns false: the Python idiom
`max_age_seconds or config.STALE_DATA_THRESHOLD` replaces the falsy
threshold 0 by the default 10. -/
theorem is_stale_zero_threshold_cex :
    is_stale emptyBook 5 (some 0) = false ∧ (5 : ℚ) - emptyBook.lastUpdateAt > 0 := by
  constructor
  · simp +decide [is_stale, emptyBook, STALE_DATA_THRESHOLD]
  · norm_num [emptyBook]

/-- C5 (amended): for every nonzero caller-supplied threshold, `is_stale`
returns true exactly when the elapsed time since `lastUpdateAt` strictly
exceeds that threshold; a supplied threshold of 0 behaves like an absent
one and falls back to the configured default `STALE_DATA_THRESHOLD`. -/
theorem is_stale_amended :
    ∀ (b : OrderBook) (now t : ℚ),
      (t ≠ 0 → (is_stale b now (some t) = true ↔ now - b.lastUpdateAt > t)) ∧
      is_stale b now (some 0) = is_stale b now none ∧
      (is_stale b now none = true ↔ now - b.lastUpdateAt > STALE_DATA_THRESHOLD) := by
  intro b now t
  refine ⟨fun ht => ?_, ?_, ?_⟩
  · simp [is_stale, ht]
  · simp [is_stale]
  · simp [is_stale]

/-- C5 witness: the amended equivalence applied with nonzero threshold 5 to
the empty book at time 20. -/
theorem is_stale_amended_witness :
    is_stale emptyBook 20 (some 5) = true ↔ (20 : ℚ) - emptyBook.lastUpdateAt > 5 :=
  (is_stale_amended emptyBook 20 5).1 (by norm_num)

/-- C6 counterexample: with order size 100 and the caller-supplied fee tier
0, `fee_estimate` returns 100 * DEFAULT_FEE_TIER = 1/10, not
100 * 0 = 0: the Python idiom `fee_tier or config.DEFAULT_FEE_TIER`
replaces the falsy tier 0 by the default 0.001. -/
theorem fee_zero_tier_cex :
    fee_estimate 100 (some 0) = 1 / 10 ∧ (1 / 10 : ℚ) ≠ 100 * 0 := by
  constructor
  · simp [fee_estimate, DEFAULT_FEE_TIER]; norm_num
  · norm_num

/-- C6 (amended): `fee_estimate` returns exactly `size * feeTier` for every
nonzero caller-supplied fee tier; the configured default fee tier is used
when the caller supplies none, and also when the supplied tier is 0. -/
theorem fee_estimate_amended :
    ∀ s t : ℚ,
      (t ≠ 0 → fee_estimate s (some t) = s * t) ∧
      fee_estimate s none = s * DEFAULT_FEE_TIER ∧
      fee_estimate s (some 0) = s * DEFAULT_FEE_TIER := by
  intro s t
  refine ⟨fun ht => ?_, rfl, ?_⟩
  · simp [fee_estimate, ht]
  · simp [fee_estimate]

/-- C6 witness: the amended formula applied at size 100 and nonzero fee
tier 1/100. -/
theorem fee_estimate_amended_witness :
    fee_estimate 100 (some (1 / 100)) = 100 * (1 / 100) :=
  (fee_estimate_amended 100 (1 / 100)).1 (by norm_num)

/-- C7: an individual delta entry whose price or quantity fails to parse is
skipped and only that entry is dropped: updating with the bad entry spliced
anywhere into either batch produces exactly the book obtained without it,
so the batch is never aborted and all parseable entries still apply (the
embedding of `update` is a total function: the source wraps each entry in
try/except, so no exception reaches the caller). -/
theorem update_skips_unparseable_entry :
    ∀ (b : OrderBook) (now : ℚ)
      (preA postA preB postB : List (String × String)) (ea eb : String × String),
      pyFloat ea.1 = none ∨ pyFloat ea.2 = none →
      pyFloat eb.1 = none ∨ pyFloat eb.2 = none →
      b.update (preA ++ ea :: postA) (preB ++ eb :: postB) now =
        b.update (preA ++ postA) (preB ++ postB) now := by
  intro b now preA postA preB postB ea eb ha hb
  unfold OrderBook.update
  rw [applySide_append, applySide_append, applySide_append, applySide_append,
    applySide_cons, applyEntry_of_bad _ _ ha, applySide_cons, applyEntry_of_bad _ _ hb]

/-- C7 witness: splicing the unparseable ask entry ("abc", "1.0") and the
unparseable bid entry ("49800.0", "xyz") into the scenario batches changes
nothing. -/
theorem update_skips_unparseable_entry_witness :
    emptyBook.update ([("50000.0", "1.5")] ++ ("abc", "1.0") :: [("50100.0", "2.0")])
        ([("49900.0", "2.5")] ++ ("49800.0", "xyz") :: []) 1 =
      emptyBook.update ([("50000.0", "1.5")] ++ [("50100.0", "2.0")])
        ([("49900.0", "2.5")] ++ []) 1 :=
  update_skips_unparseable_entry emptyBook 1 [("50000.0", "1.5")] [("50100.0", "2.0")]
    [("49900.0", "2.5")] [] ("abc", "1.0") ("49800.0", "xyz")
    (Or.inl (by decide)) (Or.inr (by decide))

/-- C8 counterexample: a transport failure that is not a
`websockets.exceptions.WebSocketException` — e.g. connection refused, which
raises `OSError` — is handled by the generic `except Exception` branch of
`connect`, which recomputes the backoff delay but does not touch the
counter: from the freshly initialised running client state, one such
failure leaves `reconnect_attempts` unchanged at 0 while still recomputing
`reconnect_delay = min(MAX_RECONNECT_DELAY, delay * 1.5)`, refuting "each
failure increments the attempt counter". -/
theorem reconnect_no_increment_cex :
    (stepClient initialClientState ConnEvent.otherError).reconnect_attempts
        = initialClientState.reconnect_attempts ∧
      (stepClient initialClientState ConnEvent.otherError).reconnect_delay
        = min MAX_RECONNECT_DELAY (initialClientState.reconnect_delay * (3 / 2)) ∧
      (stepClient initialClientState ConnEvent.otherError).running = true := by
  refine ⟨?_, ?_, ?_⟩ <;> simp [stepClient, initialClientState]

/-- C8 (amended): from any running client state, a sequence of n transport
failures raising `WebSocketException` increases `reconnect_attempts` by
exactly n — the counter is never capped — and leaves the supervisory loop
running, so it keeps re-attempting until `shutdown()`; each such failure
recomputes the delay as min(MAX_RECONNECT_DELAY, delay * 1.5), which is
therefore capped by MAX_RECONNECT_DELAY; a transport failure raising any
other exception takes the generic `except Exception` branch, which
recomputes and caps the delay identically and keeps the loop running but
does not increment the counter; and a successful connection resets the
counter to 0. -/
theorem reconnect_backoff_amended :
    ∀ (s : ClientState) (n : ℕ), s.running = true →
      (((List.replicate n ConnEvent.wsError).foldl stepClient s).reconnect_attempts
          = s.reconnect_attempts + n ∧
        ((List.replicate n ConnEvent.wsError).foldl stepClient s).running = true) ∧
      (stepClient s ConnEvent.wsError).reconnect_delay
          = min MAX_RECONNECT_DELAY (s.reconnect_delay * (3 / 2)) ∧
      (stepClient s ConnEvent.wsError).reconnect_delay ≤ MAX_RECONNECT_DELAY ∧
      ((stepClient s ConnEvent.otherError).reconnect_attempts = s.reconnect_attempts ∧
        (stepClient s ConnEvent.otherError).reconnect_delay
          = min MAX_RECONNECT_DELAY (s.reconnect_delay * (3 / 2)) ∧
        (stepClient s ConnEvent.otherError).reconnect_delay ≤ MAX_RECONNECT_DELAY ∧
        (stepClient s ConnEvent.otherError).running = true) ∧
      (stepClient s ConnEvent.connectOk).reconnect_attempts = 0 := by
  have main : ∀ (n : ℕ) (s : ClientState), s.running = true →
      ((List.replicate n ConnEvent.wsError).foldl stepClient s).reconnect_attempts
          = s.reconnect_attempts + n ∧
      ((List.replicate n ConnEvent.wsError).foldl stepClient s).running = true := by
    intro n
    induction n with
    | zero => intro s h; exact ⟨rfl, h⟩
    | succ n ih =>
      intro s h
      rw [List.replicate_succ, List.foldl_cons]
      have hs : (stepClient s ConnEvent.wsError).running = true := by
        simp [stepClient, h]
      have hrec := ih (stepClient s ConnEvent.wsError) hs
      refine ⟨?_, hrec.2⟩
      rw [hrec.1]
      have : (stepClient s ConnEvent.wsError).reconnect_attempts
          = s.reconnect_attempts + 1 := by simp [stepClient, h]
      rw [this]
      omega
  intro s n h
  refine ⟨main n s h, ?_, ?_, ⟨?_, ?_, ?_, ?_⟩, ?_⟩ <;> simp [stepClient, h]

/-- C8 witness: three consecutive `WebSocketException` failures starting
from the freshly initialised client state drive the attempt counter from 0
to 3 while the loop keeps running. -/
theorem reconnect_backoff_amended_witness :
    ((List.replicate 3 ConnEvent.wsError).foldl stepClient initialClientState).reconnect_attempts
        = initialClientState.reconnect_attempts + 3 ∧
      ((List.replicate 3 ConnEvent.wsError).foldl stepClient initialClientState).running = true :=
  (reconnect_backoff_amended initialClientState 3 rfl).1

/-- C9: with the latency buffer as fresh as at client creation (empty),
`get_average_latency` returns 0 rather than failing, and on any non-empty
buffer it returns the arithmetic mean of the samples. -/
theorem average_latency_spec :
    get_average_latency initialLatency = 0 ∧
      ∀ l : List ℚ, l ≠ [] → get_average_latency l = l.sum / (l.length : ℚ) := by
  constructor
  · rfl
  · intro l hl
    rw [get_average_latency, if_neg]
    simpa using hl

/-- C9 witness: the mean of the concrete sample buffer [1, 2, 3]. -/
theorem average_latency_spec_witness :
    get_average_latency [1, 2, 3] =
      ([1, 2, 3] : List ℚ).sum / (([1, 2, 3] : List ℚ).length : ℚ) :=
  average_latency_spec.2 [1, 2, 3] (List.cons_ne_nil 1 [2, 3])

/-- C10: `update` mutates the two sides independently: the resulting bid
map does not depend on the ask batch and the resulting ask map does not
depend on the bid batch; in particular an empty bid batch leaves the bids
exactly unchanged, and symmetrically for asks. -/
theorem update_sides_independent :
    ∀ (b : OrderBook) (askDeltas askDeltas2 bidDeltas bidDeltas2 : List (String × String))
      (now : ℚ),
      (b.update askDeltas bidDeltas now).bids = (b.update askDeltas2 bidDeltas now).bids ∧
      (b.update askDeltas bidDeltas now).asks = (b.update askDeltas bidDeltas2 now).asks ∧
      (b.update askDeltas [] now).bids = b.bids ∧
      (b.update [] bidDeltas now).asks = b.asks := by
  intro b askDeltas askDeltas2 bidDeltas bidDeltas2 now
  exact ⟨rfl, rfl, rfl, rfl⟩
